import Mathlib

/-!
Verification of the downcast-trait cross-cast facility (src/src/lib.rs).

The crate lets an object known through the base capability `dyn DowncastTrait`
be queried at run time for another capability (trait) it advertises.  The
registry emitter `downcast_trait_impl_convert_to!` takes the implementor's
fixed list of capabilities and emits two lookup functions, each an ordered
chain of equality tests of the requested `TypeId` against each advertised
capability's `TypeId`; on the first match it returns the object viewed through
that capability, transmuted to an erased carrier (`dyn Any`), and after all
tests fall through it returns `None`.  The query operators `downcast_trait!`
and `downcast_trait_mut!` compute the target's `TypeId`, call the lookup, and
transmute the carrier back to the requested capability view.

Shallow embedding choices:
* a capability token (`core::any::TypeId`) is a natural number with decidable
  equality; the host guarantees a token is equal only to itself;
* a trait object reference `&dyn C` is a dispatch handle: the borrowed object
  (the data pointer) paired with the capability's method table; a shared
  method of the capability is a function from the object to a result, a
  mutating method returns the updated object and a result;
* the `mem::transmute` between a capability handle and the erased carrier
  preserves both pointer fields verbatim, so with the erasure elided it is the
  identity on the handle pair;
* the emitted lookups borrow `self` and contain no assignment, so their
  state-passing translations return the incoming object unchanged.
-/

/-- Model of `core::any::TypeId`: a process-unique comparable token per
capability, equal only to itself (decidable equality on `Nat`). -/
abbrev TypeId := Nat

/-- One advertised capability of an implementor `α`, as listed in a
`downcast_trait_impl_convert_to!(dyn C1, ..., dyn Cn)` declaration:
the capability's token (`TypeId::of::<dyn C>()`), its shared-borrow methods
(`&self` methods, result type `R`) and its mutating methods (`&mut self`
methods, returning the updated object and a result). -/
structure TraitDecl (α : Type) (R : Type) where
  id : TypeId
  methods : List (α → R)
  methodsMut : List (α → α × R)

/-- A shared trait-object reference `&dyn C`: the borrowed object (data
pointer) plus the capability's shared method table (vtable pointer). -/
structure DynHandle (α : Type) (R : Type) where
  data : α
  vtable : List (α → R)

/-- An exclusive trait-object reference `&mut dyn C`: the borrowed object plus
the capability's shared and mutating method tables. -/
structure DynHandleMut (α : Type) (R : Type) where
  data : α
  vtable : List (α → R)
  vtableMut : List (α → α × R)

/-- Invoke the `i`-th shared method of the capability on a shared view:
dispatch through the vtable to the concrete implementation, applied to the
borrowed object. `none` when the capability has no `i`-th method. -/
def DynHandle.invoke {α R : Type} (h : DynHandle α R) (i : Nat) : Option R :=
  (h.vtable.get? i).map (fun m => m h.data)

/-- Invoke the `i`-th shared method of the capability through an exclusive
view (a `&self` method is callable through `&mut dyn C`). -/
def DynHandleMut.invoke {α R : Type} (h : DynHandleMut α R) (i : Nat) : Option R :=
  (h.vtable.get? i).map (fun m => m h.data)

/-- Invoke the `i`-th mutating method of the capability through an exclusive
view: returns the updated object and the method's result. -/
def DynHandleMut.invokeMut {α R : Type} (h : DynHandleMut α R) (i : Nat) :
    Option (α × R) :=
  (h.vtableMut.get? i).map (fun m => m h.data)

/-- The body of `convert_to_trait` emitted by `downcast_trait_impl_convert_to!`
(src/src/lib.rs lines 134-151): an ordered chain
`if false { None } else if trait_id == TypeId::of::<dyn C1>() { Some(self as &dyn C1) } ... else { None }`,
one test per declared capability in textual order; the first match returns the
object viewed through that capability (its erased carrier preserves the data
pointer `self` and the capability's vtable verbatim), the fallthrough returns
`None`. -/
def convert_to_trait {α R : Type} (decls : List (TraitDecl α R)) (self : α)
    (trait_id : TypeId) : Option (DynHandle α R) :=
  match decls with
  | [] => none
  | d :: rest =>
    if trait_id = d.id then some ⟨self, d.methods⟩
    else convert_to_trait rest self trait_id

/-- The body of `convert_to_trait_mut` emitted by
`downcast_trait_impl_convert_to!` (src/src/lib.rs lines 153-170): the same
ordered chain of token tests over the same declared list, constructing an
exclusive view `self as &mut dyn Ci` on the first match. -/
def convert_to_trait_mut {α R : Type} (decls : List (TraitDecl α R)) (self : α)
    (trait_id : TypeId) : Option (DynHandleMut α R) :=
  match decls with
  | [] => none
  | d :: rest =>
    if trait_id = d.id then some ⟨self, d.methods, d.methodsMut⟩
    else convert_to_trait_mut rest self trait_id

/-- A base-capability object `&dyn DowncastTrait`: the object together with
the capability registry its implementor declared. -/
structure DynDowncastTrait (α : Type) (R : Type) where
  data : α
  decls : List (TraitDecl α R)

/-- `to_downcast_trait` (emitted at src/src/lib.rs lines 172-175): trivial
widening of a concrete implementor to the base capability. -/
def to_downcast_trait {α R : Type} (decls : List (TraitDecl α R)) (self : α) :
    DynDowncastTrait α R :=
  ⟨self, decls⟩

/-- `to_downcast_trait_mut` (src/src/lib.rs lines 177-180): the exclusive
counterpart of the widening; same object, same registry. -/
def to_downcast_trait_mut {α R : Type} (decls : List (TraitDecl α R))
    (self : α) : DynDowncastTrait α R :=
  ⟨self, decls⟩

/-- The `mem::transmute::<&dyn Any, &dyn C>` step of `downcast_trait!`
(src/src/lib.rs line 95): restores the carrier's concealed capability
identity; both pointer fields are preserved verbatim, so with the erasure
elided in the embedding it is the identity on the handle. -/
def transmute_handle {α R : Type} (h : DynHandle α R) : DynHandle α R := h

/-- The mutable transmute step of `downcast_trait_mut!`
(src/src/lib.rs line 116). -/
def transmute_handle_mut {α R : Type} (h : DynHandleMut α R) :
    DynHandleMut α R := h

/-- The `downcast_trait!` query operator (src/src/lib.rs lines 90-100):
computes the target capability's token, calls `convert_to_trait` on the base
handle, and maps the transmute over the optional carrier. -/
def downcast_trait {α R : Type} (src : DynDowncastTrait α R)
    (target_id : TypeId) : Option (DynHandle α R) :=
  (convert_to_trait src.decls src.data target_id).map transmute_handle

/-- The `downcast_trait_mut!` query operator (src/src/lib.rs lines 111-121):
the exclusive counterpart, calling `convert_to_trait_mut`. -/
def downcast_trait_mut {α R : Type} (src : DynDowncastTrait α R)
    (target_id : TypeId) : Option (DynHandleMut α R) :=
  (convert_to_trait_mut src.decls src.data target_id).map transmute_handle_mut

/-- State-passing translation of `convert_to_trait`: the method borrows
`self` shared (`&self`) and its emitted body (src/src/lib.rs lines 134-151)
contains no assignment, so the outgoing object state is the incoming one. -/
def convert_to_trait_st {α R : Type} (decls : List (TraitDecl α R)) (self : α)
    (trait_id : TypeId) : α × Option (DynHandle α R) :=
  (self, convert_to_trait decls self trait_id)

/-- State-passing translation of `convert_to_trait_mut`: the method borrows
`self` exclusively (`&mut self`) but its emitted body (src/src/lib.rs lines
153-170) only reads `self` (the cast `self as &mut dyn Ci`) and contains no
assignment, so the outgoing object state is the incoming one. -/
def convert_to_trait_mut_st {α R : Type} (decls : List (TraitDecl α R))
    (self : α) (trait_id : TypeId) : α × Option (DynHandleMut α R) :=
  (self, convert_to_trait_mut decls self trait_id)

/-- The argument pattern of the sole rule of `downcast_trait_impl_convert_to!`
(src/src/lib.rs line 133): `($(dyn $type:path),+)`, a comma-separated
repetition with the `+` quantifier, which matches one or more `dyn Trait`
items; an invocation whose arguments match no rule is a compile-time error,
so emission succeeds exactly on nonempty capability lists. -/
def downcast_trait_impl_convert_to_matches {α R : Type}
    (args : List (TraitDecl α R)) : Bool :=
  decide (1 ≤ args.length)

/-! ### The crate's test fixture (src/src/lib.rs lines 184-231) -/

/-- `u32` modulus: arithmetic on `u32` wraps at `2 ^ 32`. -/
def u32Mod : Nat := 2 ^ 32

/-- The test implementor `struct Downcastable { val: u32 }`
(src/src/lib.rs lines 193-195). -/
structure Downcastable where
  val : Nat

/-- `impl Downcasted for Downcastable`: `get_number` returns `val + 123`
(`u32` addition, src/src/lib.rs lines 196-200). -/
def Downcasted_get_number (self : Downcastable) : Nat :=
  (self.val + 123) % u32Mod

/-- `impl Downcasted2 for Downcastable`: `get_number` returns `val + 456`
(`u32` addition, src/src/lib.rs lines 201-205). -/
def Downcasted2_get_number (self : Downcastable) : Nat :=
  (self.val + 456) % u32Mod

/-- The token `TypeId::of::<dyn Downcasted>()`. -/
def DowncastedId : TypeId := 0

/-- The token `TypeId::of::<dyn Downcasted2>()`; distinct from
`DowncastedId`, as the two traits are distinct types. -/
def Downcasted2Id : TypeId := 1

/-- The registry declared by
`downcast_trait_impl_convert_to!(dyn Downcasted, dyn Downcasted2)`
(src/src/lib.rs line 207): the two capabilities in textual order, each with
its sole shared method `get_number` and no mutating methods. -/
def Downcastable_decls : List (TraitDecl Downcastable Nat) :=
  [⟨DowncastedId, [Downcasted_get_number], []⟩,
   ⟨Downcasted2Id, [Downcasted2_get_number], []⟩]

/-- Witness fixture after spec scenarios 4 and 6: a second implementor
`Only { val: u32 }` advertising only the first capability, with its own
concrete implementation of that capability's method. -/
structure Only where
  val : Nat

/-- The `Downcasted`-capability method of `Only`: its own concrete
implementation, distinct from `Downcastable`'s. -/
def Only_get_number (self : Only) : Nat :=
  self.val % u32Mod

/-- Registry of `Only`: advertises only `dyn Downcasted`. -/
def Only_decls : List (TraitDecl Only Nat) :=
  [⟨DowncastedId, [Only_get_number], []⟩]

/-! ### Helper lemmas -/

/-- The emitted shared lookup is the first-match search: it returns the view
for the first declared capability whose token equals the request. -/
theorem convert_to_trait_eq_find {α R : Type} (decls : List (TraitDecl α R))
    (x : α) (t : TypeId) :
    convert_to_trait decls x t =
      (decls.find? (fun d => decide (t = d.id))).map
        (fun d => ⟨x, d.methods⟩) := by
  induction decls with
  | nil => rfl
  | cons d rest ih =>
    by_cases h : t = d.id
    · simp [convert_to_trait, List.find?_cons, h]
    · simp [convert_to_trait, List.find?_cons, h, ih]

/-- The emitted exclusive lookup is the same first-match search over the same
declared list. -/
theorem convert_to_trait_mut_eq_find {α R : Type}
    (decls : List (TraitDecl α R)) (x : α) (t : TypeId) :
    convert_to_trait_mut decls x t =
      (decls.find? (fun d => decide (t = d.id))).map
        (fun d => ⟨x, d.methods, d.methodsMut⟩) := by
  induction decls with
  | nil => rfl
  | cons d rest ih =>
    by_cases h : t = d.id
    · simp [convert_to_trait_mut, List.find?_cons, h]
    · simp [convert_to_trait_mut, List.find?_cons, h, ih]

/-- Splitting the chain of token tests at a list append. -/
theorem convert_to_trait_append {α R : Type} (l₁ l₂ : List (TraitDecl α R))
    (x : α) (t : TypeId) :
    convert_to_trait (l₁ ++ l₂) x t =
      ((convert_to_trait l₁ x t).rec (convert_to_trait l₂ x t) some :
        Option (DynHandle α R)) := by
  induction l₁ with
  | nil => rfl
  | cons d rest ih =>
    by_cases h : t = d.id
    · simp [convert_to_trait, h]
    · simp [convert_to_trait, h, ih]

/-- A missed lookup means no declared token matches. -/
theorem convert_to_trait_eq_none_iff {α R : Type}
    (decls : List (TraitDecl α R)) (x : α) (t : TypeId) :
    convert_to_trait decls x t = none ↔ ∀ d ∈ decls, t ≠ d.id := by
  rw [convert_to_trait_eq_find]
  simp [List.find?_eq_none]

/-- A missed exclusive lookup likewise means no declared token matches. -/
theorem convert_to_trait_mut_eq_none_iff {α R : Type}
    (decls : List (TraitDecl α R)) (x : α) (t : TypeId) :
    convert_to_trait_mut decls x t = none ↔ ∀ d ∈ decls, t ≠ d.id := by
  rw [convert_to_trait_mut_eq_find]
  simp [List.find?_eq_none]

/-- Presence of the shared lookup is exactly whether some declared token
matches the request. -/
theorem convert_to_trait_isSome_eq_any {α R : Type}
    (decls : List (TraitDecl α R)) (x : α) (t : TypeId) :
    (convert_to_trait decls x t).isSome =
      decls.any (fun d => decide (t = d.id)) := by
  induction decls with
  | nil => rfl
  | cons d rest ih =>
    by_cases h : t = d.id <;> simp [convert_to_trait, h, ih]

/-- Presence of the exclusive lookup is the same token-match condition. -/
theorem convert_to_trait_mut_isSome_eq_any {α R : Type}
    (decls : List (TraitDecl α R)) (x : α) (t : TypeId) :
    (convert_to_trait_mut decls x t).isSome =
      decls.any (fun d => decide (t = d.id)) := by
  induction decls with
  | nil => rfl
  | cons d rest ih =>
    by_cases h : t = d.id <;> simp [convert_to_trait_mut, h, ih]

/-! ### Claims -/

/-- C1. Sound hit: for every implementor whose declared capability list
contains capability `C` (tokens being a sound proxy for capability identity:
declared entries bearing `C`'s token carry `C`'s methods), and every object
`x`, the read-only query `downcast_trait!(dyn C, x.to_downcast_trait())`
returns `Some(v)`, the view `v` borrows `x` itself, and invoking any method
of `C` on `v` produces the same result as invoking that method on `x`
directly. -/
theorem C1_sound_hit {α R : Type} (decls : List (TraitDecl α R))
    (C : TraitDecl α R) (x : α) (hC : C ∈ decls)
    (htok : ∀ d ∈ decls, d.id = C.id → d.methods = C.methods) :
    ∃ v : DynHandle α R,
      downcast_trait (to_downcast_trait decls x) C.id = some v ∧
      v.data = x ∧
      ∀ i, v.invoke i = (C.methods.get? i).map (fun m => m x) := by
  have hs : (decls.find? (fun d => decide (C.id = d.id))).isSome := by
    rw [List.find?_isSome]
    exact ⟨C, hC, by simp⟩
  obtain ⟨d₀, hfind⟩ := Option.isSome_iff_exists.mp hs
  have hp : C.id = d₀.id := by
    have hfd := List.find?_some hfind
    simpa using hfd
  have hmem : d₀ ∈ decls := List.mem_of_find?_eq_some hfind
  have hm : d₀.methods = C.methods := htok d₀ hmem hp.symm
  refine ⟨⟨x, d₀.methods⟩, ?_, rfl, ?_⟩
  · simp [downcast_trait, to_downcast_trait, convert_to_trait_eq_find, hfind,
      transmute_handle]
  · intro i
    simp [DynHandle.invoke, hm]

/-- Witness for C1 at the crate's test fixture: `Downcastable { val: 0 }`
with capability `Downcasted2`. -/
theorem C1_sound_hit_witness :
    ∃ v : DynHandle Downcastable Nat,
      downcast_trait (to_downcast_trait Downcastable_decls ⟨0⟩)
        Downcasted2Id = some v ∧
      v.data = ⟨0⟩ ∧
      ∀ i, v.invoke i =
        ([Downcasted2_get_number].get? i).map (fun m => m ⟨0⟩) :=
  C1_sound_hit Downcastable_decls
    ⟨Downcasted2Id, [Downcasted2_get_number], []⟩ ⟨0⟩
    (by simp [Downcastable_decls])
    (by
      intro d hd hid
      simp [Downcastable_decls] at hd
      rcases hd with h | h <;> subst h
      · exact absurd hid (by decide)
      · rfl)

/-- C2. Sound miss reported in-band: when the requested token differs from
every declared capability's token, both emitted lookups and both query
operators return `None`; in the embedding every operation is a total
function into `Option`, so absence is the only run-time outcome besides a
hit and there is no exception-like escape. -/
theorem C2_sound_miss {α R : Type} (decls : List (TraitDecl α R)) (x : α)
    (t : TypeId) (h : ∀ d ∈ decls, t ≠ d.id) :
    convert_to_trait decls x t = none ∧
    convert_to_trait_mut decls x t = none ∧
    downcast_trait (to_downcast_trait decls x) t = none ∧
    downcast_trait_mut (to_downcast_trait_mut decls x) t = none := by
  have h₁ : convert_to_trait decls x t = none :=
    (convert_to_trait_eq_none_iff decls x t).mpr h
  have h₂ : convert_to_trait_mut decls x t = none :=
    (convert_to_trait_mut_eq_none_iff decls x t).mpr h
  refine ⟨h₁, h₂, ?_, ?_⟩
  · simp [downcast_trait, to_downcast_trait, h₁]
  · simp [downcast_trait_mut, to_downcast_trait_mut, h₂]

/-- Witness for C2 after spec scenario 4: `Only` advertises only
`Downcasted`, so the query for `Downcasted2` misses. -/
theorem C2_sound_miss_witness :
    convert_to_trait Only_decls ⟨7⟩ Downcasted2Id = none ∧
    convert_to_trait_mut Only_decls ⟨7⟩ Downcasted2Id = none ∧
    downcast_trait (to_downcast_trait Only_decls ⟨7⟩) Downcasted2Id = none ∧
    downcast_trait_mut (to_downcast_trait_mut Only_decls ⟨7⟩) Downcasted2Id
      = none :=
  C2_sound_miss Only_decls ⟨7⟩ Downcasted2Id
    (by
      intro d hd
      simp [Only_decls] at hd
      subst hd
      decide)

/-- C3. Mutability parity: for every declared list, object and token, the
exclusive lookup returns `Some` exactly when the shared lookup does; and any
exclusive view returned borrows the original object, so each of the target
capability's methods (shared or mutating) dispatched through the view acts
on the original object itself, while the shared lookup returns a view of the
same object through the same method table. -/
theorem C3_mutability_parity {α R : Type} (decls : List (TraitDecl α R))
    (x : α) (t : TypeId) :
    (convert_to_trait_mut decls x t).isSome =
      (convert_to_trait decls x t).isSome ∧
    ∀ hm : DynHandleMut α R, convert_to_trait_mut decls x t = some hm →
      hm.data = x ∧
      (∀ i, hm.invoke i = (hm.vtable.get? i).map (fun m => m x)) ∧
      (∀ i, hm.invokeMut i = (hm.vtableMut.get? i).map (fun m => m x)) ∧
      ∃ hr : DynHandle α R, convert_to_trait decls x t = some hr ∧
        hr.data = x ∧ hr.vtable = hm.vtable := by
  constructor
  · rw [convert_to_trait_isSome_eq_any, convert_to_trait_mut_isSome_eq_any]
  · intro hm hsome
    rw [convert_to_trait_mut_eq_find] at hsome
    rcases hfind : decls.find? (fun d => decide (t = d.id)) with _ | d₀
    · rw [hfind] at hsome
      simp at hsome
    · rw [hfind] at hsome
      simp at hsome
      subst hsome
      refine ⟨rfl, fun i => rfl, fun i => rfl, ⟨x, d₀.methods⟩, ?_, rfl, rfl⟩
      rw [convert_to_trait_eq_find, hfind]
      rfl

/-- Witness for C3 at the crate's test fixture: `Downcastable { val: 0 }`
queried for `Downcasted2`, the exclusive view computed concretely. -/
theorem C3_mutability_parity_witness :
    (convert_to_trait_mut Downcastable_decls ⟨0⟩ Downcasted2Id).isSome =
      (convert_to_trait Downcastable_decls ⟨0⟩ Downcasted2Id).isSome ∧
    DynHandleMut.data
      (⟨⟨0⟩, [Downcasted2_get_number], []⟩ :
        DynHandleMut Downcastable Nat) = ⟨0⟩ :=
  ⟨(C3_mutability_parity Downcastable_decls ⟨0⟩ Downcasted2Id).1,
   ((C3_mutability_parity Downcastable_decls ⟨0⟩ Downcasted2Id).2
      ⟨⟨0⟩, [Downcasted2_get_number], []⟩ rfl).1⟩

/-- C4. First-match ordered lookup: the emitted shared lookup equals the
first-match search over the declared list in textual order (the handle
returned is the one for the first capability whose token matches); and a
capability already listed earlier may be listed again with the result of
every lookup unchanged, so only the first entry is reachable and duplicates
are harmless. -/
theorem C4_first_match {α R : Type} (l₁ l₂ : List (TraitDecl α R))
    (d : TraitDecl α R) (x : α) (t : TypeId) (hd : d ∈ l₁) :
    (∀ decls : List (TraitDecl α R),
      convert_to_trait decls x t =
        (decls.find? (fun e => decide (t = e.id))).map
          (fun e => ⟨x, e.methods⟩)) ∧
    convert_to_trait (l₁ ++ d :: l₂) x t = convert_to_trait (l₁ ++ l₂) x t := by
  refine ⟨fun decls => convert_to_trait_eq_find decls x t, ?_⟩
  rw [convert_to_trait_append, convert_to_trait_append]
  cases hc : convert_to_trait l₁ x t with
  | some h => rfl
  | none =>
    have ht : t ≠ d.id := (convert_to_trait_eq_none_iff l₁ x t).mp hc d hd
    simp [convert_to_trait, ht]

/-- Witness for C4: listing `Downcasted` a second time after the crate's
declared pair changes no lookup result. -/
theorem C4_first_match_witness :
    convert_to_trait
      (Downcastable_decls ++
        [(⟨DowncastedId, [Downcasted_get_number], []⟩ :
          TraitDecl Downcastable Nat)])
      ⟨0⟩ DowncastedId =
    convert_to_trait (Downcastable_decls ++ []) ⟨0⟩ DowncastedId :=
  (C4_first_match Downcastable_decls []
    ⟨DowncastedId, [Downcasted_get_number], []⟩ ⟨0⟩ DowncastedId
    (by simp [Downcastable_decls])).2

/-- C5. Seed scenarios (the crate's `tests::exploration`,
src/src/lib.rs lines 210-230): for `Downcastable { val: 0 }` promoted with
`to_downcast_trait_mut`, the read-only query for `Downcasted` is present and
its `get_number` returns 123; the read-only query for `Downcasted2` is
present and returns 456; the mutable query for `Downcasted2` is present and
returns 456. -/
theorem C5_seed_scenarios :
    ∃ (v₁ v₂ : DynHandle Downcastable Nat)
      (v₃ : DynHandleMut Downcastable Nat),
      downcast_trait (to_downcast_trait_mut Downcastable_decls ⟨0⟩)
        DowncastedId = some v₁ ∧
      v₁.invoke 0 = some 123 ∧
      downcast_trait (to_downcast_trait_mut Downcastable_decls ⟨0⟩)
        Downcasted2Id = some v₂ ∧
      v₂.invoke 0 = some 456 ∧
      downcast_trait_mut (to_downcast_trait_mut Downcastable_decls ⟨0⟩)
        Downcasted2Id = some v₃ ∧
      v₃.invoke 0 = some 456 := by
  refine ⟨⟨⟨0⟩, [Downcasted_get_number]⟩, ⟨⟨0⟩, [Downcasted2_get_number]⟩,
    ⟨⟨0⟩, [Downcasted2_get_number], []⟩, ?_, ?_, ?_, ?_, ?_, ?_⟩ <;> rfl

/-- C6. Independence and absence of side effects: in the state-passing
translation of the emitted lookups, a lookup for any token `tA` (shared or
exclusive) leaves the object's state unchanged, so a subsequent lookup for
any token `tB` answers exactly as it would on the untouched object. -/
theorem C6_independence {α R : Type} (decls : List (TraitDecl α R)) (x : α)
    (tA tB : TypeId) :
    (convert_to_trait_st decls x tA).1 = x ∧
    (convert_to_trait_mut_st decls x tA).1 = x ∧
    convert_to_trait decls (convert_to_trait_st decls x tA).1 tB =
      convert_to_trait decls x tB ∧
    convert_to_trait_mut decls (convert_to_trait_mut_st decls x tA).1 tB =
      convert_to_trait_mut decls x tB :=
  ⟨rfl, rfl, rfl, rfl⟩

/-- C7. Idempotence / stability: querying the same object twice for the same
token with no intervening mutation (the second query runs on the state left
by the first) yields equal results for both the shared and the exclusive
lookup, and any two views so returned have the same borrowed object, the
same method table and identical results for every method invocation. -/
theorem C7_idempotence {α R : Type} (decls : List (TraitDecl α R)) (x : α)
    (t : TypeId) :
    (convert_to_trait_st decls (convert_to_trait_st decls x t).1 t).2 =
      (convert_to_trait_st decls x t).2 ∧
    (convert_to_trait_mut_st decls
        (convert_to_trait_mut_st decls x t).1 t).2 =
      (convert_to_trait_mut_st decls x t).2 ∧
    ∀ h₁ h₂ : DynHandle α R,
      (convert_to_trait_st decls x t).2 = some h₁ →
      (convert_to_trait_st decls (convert_to_trait_st decls x t).1 t).2 =
        some h₂ →
      h₁.data = h₂.data ∧ h₁.vtable = h₂.vtable ∧
        ∀ i, h₁.invoke i = h₂.invoke i := by
  refine ⟨rfl, rfl, ?_⟩
  intro h₁ h₂ e₁ e₂
  have he : h₁ = h₂ := Option.some_inj.mp (e₁.symm.trans e₂)
  subst he
  exact ⟨rfl, rfl, fun i => rfl⟩

/-- Witness for C7 at the crate's test fixture: both repeated queries return
the `Downcasted` view of `Downcastable { val: 0 }`, whose invocations
coincide. -/
theorem C7_idempotence_witness :
    DynHandle.invoke
      (⟨⟨0⟩, [Downcasted_get_number]⟩ : DynHandle Downcastable Nat) 0 =
    DynHandle.invoke
      (⟨⟨0⟩, [Downcasted_get_number]⟩ : DynHandle Downcastable Nat) 0 :=
  ((C7_idempotence Downcastable_decls ⟨0⟩ DowncastedId).2.2
    ⟨⟨0⟩, [Downcasted_get_number]⟩ ⟨⟨0⟩, [Downcasted_get_number]⟩
    rfl rfl).2.2 0

/-- C8. Per-capability, not per-implementor, matching: for two implementors
(of possibly different types) whose declared lists both resolve the token
`t` to a capability entry, the query on each object is present and each view
dispatches the capability's methods to the respective concrete type's own
implementation on the respective object. -/
theorem C8_per_capability {α β R : Type}
    (declsI : List (TraitDecl α R)) (declsJ : List (TraitDecl β R))
    (dI : TraitDecl α R) (dJ : TraitDecl β R) (i : α) (j : β) (t : TypeId)
    (hI : declsI.find? (fun d => decide (t = d.id)) = some dI)
    (hJ : declsJ.find? (fun d => decide (t = d.id)) = some dJ) :
    downcast_trait (to_downcast_trait declsI i) t = some ⟨i, dI.methods⟩ ∧
    downcast_trait (to_downcast_trait declsJ j) t = some ⟨j, dJ.methods⟩ ∧
    (∀ k, DynHandle.invoke ⟨i, dI.methods⟩ k =
      (dI.methods.get? k).map (fun m => m i)) ∧
    (∀ k, DynHandle.invoke ⟨j, dJ.methods⟩ k =
      (dJ.methods.get? k).map (fun m => m j)) := by
  refine ⟨?_, ?_, fun k => rfl, fun k => rfl⟩
  · simp [downcast_trait, to_downcast_trait, convert_to_trait_eq_find, hI,
      transmute_handle]
  · simp [downcast_trait, to_downcast_trait, convert_to_trait_eq_find, hJ,
      transmute_handle]

/-- Witness for C8 after spec scenario 6: `Downcastable` and `Only` both
advertise `Downcasted`; the query on each returns its own view. -/
theorem C8_per_capability_witness :
    downcast_trait (to_downcast_trait Downcastable_decls ⟨0⟩) DowncastedId =
      some ⟨⟨0⟩, [Downcasted_get_number]⟩ ∧
    downcast_trait (to_downcast_trait Only_decls ⟨7⟩) DowncastedId =
      some ⟨⟨7⟩, [Only_get_number]⟩ :=
  ⟨(C8_per_capability Downcastable_decls Only_decls
      ⟨DowncastedId, [Downcasted_get_number], []⟩
      ⟨DowncastedId, [Only_get_number], []⟩ ⟨0⟩ ⟨7⟩ DowncastedId
      rfl rfl).1,
   (C8_per_capability Downcastable_decls Only_decls
      ⟨DowncastedId, [Downcasted_get_number], []⟩
      ⟨DowncastedId, [Only_get_number], []⟩ ⟨0⟩ ⟨7⟩ DowncastedId
      rfl rfl).2.1⟩

/-- C9. Empty-list rejection: the sole rule of
`downcast_trait_impl_convert_to!` uses the one-or-more repetition
`($(dyn $type:path),+)`, so an empty capability list matches no rule (a
compile-time refusal) and every nonempty list is accepted. -/
theorem C9_empty_list_rejected {α R : Type} :
    downcast_trait_impl_convert_to_matches ([] : List (TraitDecl α R))
      = false ∧
    ∀ args : List (TraitDecl α R),
      downcast_trait_impl_convert_to_matches args = true ↔ args ≠ [] := by
  refine ⟨rfl, fun args => ?_⟩
  cases args <;> simp [downcast_trait_impl_convert_to_matches]

/-- Witness for C9: the crate's own singleton invocation
`downcast_trait_impl_convert_to!(dyn Container)` shape is accepted. -/
theorem C9_empty_list_rejected_witness :
    downcast_trait_impl_convert_to_matches
      ([⟨DowncastedId, [Downcasted_get_number], []⟩] :
        List (TraitDecl Downcastable Nat)) = true :=
  ((C9_empty_list_rejected (α := Downcastable) (R := Nat)).2 _).mpr
    (by simp)

/-- C10. Presence depends only on the type and the token: the registry a
lookup consults is fixed by the implementor's declaration, so for any two
objects `x` and `y` of the same implementor and any token, the shared and
the exclusive lookups agree on presence versus absence regardless of the
objects' field values; presence is exactly whether some declared token
equals the request. -/
theorem C10_presence_type_determined {α R : Type}
    (decls : List (TraitDecl α R)) (x y : α) (t : TypeId) :
    (convert_to_trait decls x t).isSome =
      (convert_to_trait decls y t).isSome ∧
    (convert_to_trait_mut decls x t).isSome =
      (convert_to_trait_mut decls y t).isSome ∧
    (convert_to_trait decls x t).isSome =
      decls.any (fun d => decide (t = d.id)) := by
  refine ⟨?_, ?_, convert_to_trait_isSome_eq_any decls x t⟩
  · rw [convert_to_trait_isSome_eq_any, convert_to_trait_isSome_eq_any]
  · rw [convert_to_trait_mut_isSome_eq_any, convert_to_trait_mut_isSome_eq_any]
